import Mathlib

/-!
Shallow embedding of the Garak-MCP integration layer
(`src/config.py`, `src/utils.py`, `src/server.py`).

Python strings become `String`, dictionaries of JSON bodies become the
list of their top-level keys, the filesystem becomes a list of paths
(with a timestamp where the code compares file times), the environment
becomes an explicit lookup function, and network / process effects
become explicit oracle parameters so that "makes no network call" is
visible in the types.  Fallible Python code returns `Except String`.
-/

namespace GarakMCP

/-- Substring containment on character lists: Python's `needle in haystack`. -/
def listContainsSub (needle : List Char) : List Char → Bool
  | [] => needle.isEmpty
  | c :: t => needle.isPrefixOf (c :: t) || listContainsSub needle t

/-- Python's `needle in haystack` for strings. -/
def containsSub (haystack needle : String) : Bool :=
  listContainsSub needle.toList haystack.toList

/-- Python's `str.lower()` (ASCII case folding, as `Char.toLower`). -/
def lowerStr (s : String) : String :=
  String.mk (s.toList.map Char.toLower)

/-- Python's `str.strip()` on a character list: drop whitespace from
both ends. -/
def trimChars (l : List Char) : List Char :=
  ((l.dropWhile Char.isWhitespace).reverse.dropWhile Char.isWhitespace).reverse

/-- Python's `str.strip()`. -/
def stripStr (s : String) : String :=
  String.mk (trimChars s.toList)

/-- Python's `str.split(sep)` for a one-character separator: every
occurrence splits, adjacent separators yield empty fields, and the
empty string yields `[""]`. -/
def splitCharList (sep : Char) : List Char → List (List Char)
  | [] => [[]]
  | c :: t =>
    match splitCharList sep t with
    | [] => if c = sep then [[], []] else [[c]]
    | h :: r => if c = sep then [] :: h :: r else (c :: h) :: r

/-- Python's `str.split(sep)` on strings. -/
def splitStr (sep : Char) (s : String) : List String :=
  (splitCharList sep s.toList).map String.mk

/-- Python's `str.strip()` followed by the truthiness test used in the
list comprehensions: keep `m.strip()` when it is non-empty. -/
def stripKeep (m : String) : Option String :=
  let s := stripStr m
  if s = "" then none else some s

/-- The comma-split / strip / drop-empties pipeline shared by
`_get_openai_models`, `_get_huggingface_models` and `_get_ggml_models`:
`[model.strip() for model in value.split(",") if model.strip()]`. -/
def splitStripModels (value : String) : List String :=
  (splitStr ',' value).filterMap stripKeep

/-- Python process environment: `os.getenv name` (`none` = unset). -/
def PyEnv : Type := String → Option String

/-- `os.getenv name default`. -/
def getenvD (env : PyEnv) (name dflt : String) : String :=
  (env name).getD dflt

/-- Python truthiness of an optional string (`None` and `""` are falsy). -/
def truthy : Option String → Bool
  | none => false
  | some s => !s.isEmpty

/-- The generate/models endpoint pair returned by
`ModelConfig.get_openai_like_endpoints`. -/
structure Endpoints where
  generate : String
  models : String
deriving DecidableEq

/-- `ModelConfig` state after `__init__` (the environment-derived fields
the claims touch; `model_types` is embedded as the dispatch in
`list_models` / `get_model_type_info` below). -/
structure ModelConfig where
  parallel_attempts : Int
  ollama_api_url : String
  openai_like_base_url : Option String
  openai_like_api_key : Option String
deriving DecidableEq

/-- `ModelConfig.__init__` from the environment. -/
def ModelConfig.init (env : PyEnv) : ModelConfig where
  parallel_attempts := (getenvD env "PARALLEL_ATTEMPTS" "1").toInt!
  ollama_api_url := getenvD env "OLLAMA_API_URL" "http://localhost:11434/api/generate"
  openai_like_base_url := env "OPENAI_LIKE_API_URL"
  openai_like_api_key := env "OPENAI_LIKE_API_KEY"

/-- `ModelConfig.get_openai_like_endpoints`: substring heuristics on the
base URL, checked in source order (LiteLLM signature first, then the
Ollama signature, then the OpenAI-compatible default). -/
def ModelConfig.get_openai_like_endpoints (base_url : String) : Endpoints :=
  if containsSub base_url "4000" || containsSub (lowerStr base_url) "litellm" then
    ⟨"/v1/chat/completions", "/v1/models"⟩
  else if containsSub base_url "11434" || containsSub (lowerStr base_url) "ollama" then
    ⟨"/api/generate", "/api/tags"⟩
  else
    ⟨"/v1/chat/completions", "/v1/models"⟩

/-- The ordered preference list of response-field names in
`get_response_field_from_data` (`src/utils.py`). -/
def response_fields : List String :=
  ["choices", "response", "output", "content", "text"]

/-- The `for field in response_fields: if field in data: return field`
loop of `get_response_field_from_data`, over the body's top-level keys. -/
def firstFieldIn (keys : List String) : List String → Option String
  | [] => none
  | f :: fs => if keys.contains f then some f else firstFieldIn keys fs

/-- `get_response_field_from_data` (`src/utils.py`): first preferred
field present among the body's top-level keys, else `"choices"`. -/
def get_response_field_from_data (keys : List String) : String :=
  (firstFieldIn keys response_fields).getD "choices"

/-- `ModelConfig._get_openai_models`: comma-separated env value. -/
def ModelConfig.getOpenaiModels (env : PyEnv) : List String :=
  splitStripModels (getenvD env "OPENAI_MODELS" "")

/-- `ModelConfig._get_huggingface_models`: comma-separated env value. -/
def ModelConfig.getHuggingfaceModels (env : PyEnv) : List String :=
  splitStripModels (getenvD env "HUGGINGFACE_MODELS" "")

/-- `ModelConfig._get_ggml_models`: comma-separated env value. -/
def ModelConfig.getGgmlModels (env : PyEnv) : List String :=
  splitStripModels (getenvD env "GGML_MODELS" "")

/-- `ModelConfig._get_openai_like_models`: empty or unset base URL short-
circuits to `[]`; otherwise delegate to the network helper
`get_openai_like_models`, passed here as an oracle `fetch`.  The second
component counts network requests made by this call. -/
def ModelConfig.getOpenaiLikeModels (cfg : ModelConfig)
    (fetch : String → Option String → List String) : List String × Nat :=
  if truthy cfg.openai_like_base_url then
    match cfg.openai_like_base_url with
    | some u => (fetch u cfg.openai_like_api_key, 1)
    | none => ([], 0)
  else
    ([], 0)

/-- Oracles for the live model-listing calls used by `list_models`.
`ollamaFetch` stands for `_get_ollama_models` (which already degrades
its own transport errors to `[]`); `openaiLikeFetch` for
`get_openai_like_models`. -/
structure NetOracles where
  ollamaFetch : List String
  openaiLikeFetch : String → Option String → List String

/-- The keys of `ModelConfig.model_types`, in dictionary order. -/
def model_type_names : List String :=
  ["ollama", "openai", "huggingface", "ggml", "openai_like"]

/-- `ModelConfig.list_models`: `ValueError` on an unknown provider kind,
otherwise dispatch to that kind's model-lister. -/
def ModelConfig.list_models (cfg : ModelConfig) (env : PyEnv) (net : NetOracles)
    (model_type : String) : Except String (List String) :=
  if model_type ∈ model_type_names then
    if model_type = "ollama" then .ok net.ollamaFetch
    else if model_type = "openai" then .ok (ModelConfig.getOpenaiModels env)
    else if model_type = "huggingface" then .ok (ModelConfig.getHuggingfaceModels env)
    else if model_type = "ggml" then .ok (ModelConfig.getGgmlModels env)
    else .ok (cfg.getOpenaiLikeModels net.openaiLikeFetch).1
  else
    .error ("Invalid model type: " ++ model_type)

/-- The per-kind configuration record returned by `get_model_type_info`
(the `"type"` entry; the other entries are credentials and closures). -/
structure ModelTypeInfo where
  type_ : String
deriving DecidableEq

/-- `ModelConfig.get_model_type_info`: `ValueError` on an unknown
provider kind, otherwise the kind's configuration entry. -/
def ModelConfig.get_model_type_info (model_type : String) :
    Except String ModelTypeInfo :=
  if model_type ∈ model_type_names then
    if model_type = "ollama" then .ok ⟨"rest"⟩
    else if model_type = "openai" then .ok ⟨"openai"⟩
    else if model_type = "huggingface" then .ok ⟨"huggingface"⟩
    else if model_type = "ggml" then .ok ⟨"ggml"⟩
    else .ok ⟨"rest"⟩
  else
    .error ("Invalid model type: " ++ model_type)

/-- `ModelConfig.set_parallel_attempts`: `ValueError` below 1, else set
the field (and only that field). -/
def ModelConfig.set_parallel_attempts (cfg : ModelConfig) (attempts : Int) :
    Except String ModelConfig :=
  if attempts < 1 then
    .error "Number of parallel attempts must be at least 1"
  else
    .ok { cfg with parallel_attempts := attempts }

/-! ### `src/utils.py`: ANSI stripping and process invocation -/

/-- First character class of the `ansi_escape` regex in `src/utils.py`
(two-byte escapes after `ESC`): codepoints `0x40`-`0x5A` and
`0x5C`-`0x5F`. -/
def isAnsiTwoByte (c : Char) : Bool :=
  (0x40 ≤ c.toNat && c.toNat ≤ 0x5A) || (0x5C ≤ c.toNat && c.toNat ≤ 0x5F)

/-- CSI parameter bytes (the regex class from `0` to `?`):
codepoints `0x30`-`0x3F`. -/
def isCsiParam (c : Char) : Bool :=
  0x30 ≤ c.toNat && c.toNat ≤ 0x3F

/-- CSI intermediate bytes (the regex class from space to slash):
codepoints `0x20`-`0x2F`. -/
def isCsiInterm (c : Char) : Bool :=
  0x20 ≤ c.toNat && c.toNat ≤ 0x2F

/-- CSI final bytes (the regex class from `@` to tilde):
codepoints `0x40`-`0x7E`. -/
def isCsiFinal (c : Char) : Bool :=
  0x40 ≤ c.toNat && c.toNat ≤ 0x7E

theorem length_dropWhile_le' (p : Char → Bool) (l : List Char) :
    (l.dropWhile p).length ≤ l.length := by
  induction l with
  | nil => simp [List.dropWhile]
  | cons c t ih =>
    simp only [List.dropWhile]
    cases p c
    · simp
    · simpa using Nat.le_succ_of_le ih

/-- Match the body of the ANSI regex right after an `ESC` (`0x1B`):
either one two-byte escape character, or `[` followed by parameter
bytes, intermediate bytes and one final byte.  Returns the characters
after the match, or `none` when the regex does not match here.  (The
three CSI character classes are pairwise disjoint, so maximal munch
coincides with the regex's greedy backtracking semantics.) -/
def matchAnsiBody : List Char → Option (List Char)
  | [] => none
  | c :: rest =>
    if c = '[' then
      let afterParams := rest.dropWhile isCsiParam
      let afterInterm := afterParams.dropWhile isCsiInterm
      match afterInterm with
      | [] => none
      | f :: tail => if isCsiFinal f then some tail else none
    else if isAnsiTwoByte c then some rest
    else none

theorem matchAnsiBody_length_le (cs rest : List Char)
    (h : matchAnsiBody cs = some rest) : rest.length ≤ cs.length := by
  match cs with
  | [] => simp [matchAnsiBody] at h
  | c :: t =>
    simp only [matchAnsiBody] at h
    split at h
    · have h1 : (t.dropWhile isCsiParam).length ≤ t.length :=
        length_dropWhile_le' isCsiParam t
      have h2 : ((t.dropWhile isCsiParam).dropWhile isCsiInterm).length ≤
          (t.dropWhile isCsiParam).length :=
        length_dropWhile_le' isCsiInterm (t.dropWhile isCsiParam)
      split at h
      · exact absurd h (by simp)
      · next f tail heq =>
          split at h
          · cases h
            rw [heq] at h2
            simp at h2
            simp
            omega
          · exact absurd h (by simp)
    · split at h
      · cases h; simp
      · exact absurd h (by simp)

/-- `ansi_escape.sub('', text)` on character lists, with explicit fuel
(structural recursion so that the definition evaluates by reduction):
scan left to right, delete every non-overlapping leftmost match of the
regex, keep everything else.  With `fuel ≥ l.length` the fuel never
runs out (`stripAnsiFuel_fuel_irrel` below). -/
def stripAnsiFuel : Nat → List Char → List Char
  | 0, l => l
  | _, [] => []
  | fuel + 1, c :: cs =>
    if c = '\x1b' then
      match matchAnsiBody cs with
      | some rest => stripAnsiFuel fuel rest
      | none => c :: stripAnsiFuel fuel cs
    else
      c :: stripAnsiFuel fuel cs

/-- `ansi_escape.sub('', text)` on character lists. -/
def stripAnsi (l : List Char) : List Char :=
  stripAnsiFuel l.length l

theorem stripAnsiFuel_fuel_irrel (fuel fuel' : Nat) (l : List Char)
    (hf : l.length ≤ fuel) (hf' : l.length ≤ fuel') :
    stripAnsiFuel fuel l = stripAnsiFuel fuel' l := by
  induction fuel using Nat.strong_induction_on generalizing l fuel' with
  | _ fuel ih =>
    match fuel, l, fuel' with
    | f, [], f' => cases f <;> cases f' <;> rfl
    | 0, c :: cs, f' => simp at hf
    | f + 1, c :: cs, 0 => simp at hf'
    | f + 1, c :: cs, f' + 1 =>
      simp only [List.length_cons] at hf hf'
      simp only [stripAnsiFuel]
      by_cases hc : c = '\x1b'
      · simp only [hc, if_pos rfl]
        cases hm : matchAnsiBody cs with
        | some rest =>
          have hr := matchAnsiBody_length_le cs rest hm
          exact ih f (by omega) f' rest (by omega) (by omega)
        | none =>
          have := ih f (by omega) f' cs (by omega) (by omega)
          rw [this]
      · simp only [if_neg hc]
        have := ih f (by omega) f' cs (by omega) (by omega)
        rw [this]

/-- `sanitize_output` (`src/utils.py`): remove ANSI escape sequences. -/
def sanitize_output (text : String) : String :=
  String.mk (stripAnsi text.toList)

/-- One spawned process, as `get_terminal_commands_output` observes it:
its captured standard output and error texts and its pid. -/
structure SpawnOk where
  stdout : String
  stderr : String
  pid : Nat

/-- The outcome of the `subprocess.Popen` spawn and `communicate`, with
the exception class distinguished the way Python's `except` clause
distinguishes it: `subprocess.SubprocessError` is the only class the
function catches, while a transport-level spawn failure (a fork
failure, a missing shell) raises `OSError`, which is not a
`SubprocessError` subclass. -/
inductive SpawnOutcome where
  | ok (r : SpawnOk)
  | subprocessError (msg : String)
  | osError (msg : String)

/-- `get_terminal_commands_output` (`src/utils.py`), with the spawn
outcome passed as an explicit value: on success the combined stdout is
split into lines, each stripped, empties dropped, ANSI codes removed,
and returned with the pid; a `SubprocessError` is swallowed and the
accumulated (still empty) line list is returned with a `None` pid; any
other exception — in particular the `OSError` a failed spawn raises —
is not caught and propagates to the caller (`Except.error`). -/
def get_terminal_commands_output (spawn : SpawnOutcome) :
    Except String (List String × Option Nat) :=
  match spawn with
  | .subprocessError _ => .ok ([], none)
  | .osError msg => .error msg
  | .ok r =>
    let lines :=
      if r.stdout ≠ "" then
        (splitStr '\n' r.stdout).filterMap fun l =>
          (stripKeep l).map sanitize_output
      else []
    .ok (lines, some r.pid)

/-! ### `src/server.py`: temp-file lifecycle of `run_attack` and
`get_report` -/

/-- The filesystem as `run_attack` observes it: the list of existing
paths. -/
abbrev FS : Type := List String

/-- `os.path.exists`. -/
def FS.pathExists (fs : FS) (p : String) : Bool :=
  List.contains fs p

/-- `os.unlink`. -/
def FS.unlink (fs : FS) (p : String) : FS :=
  List.filter (fun q => q ≠ p) fs

/-- `GarakServer._get_generator_options_file`: build the generator
config in memory (contents irrelevant to the lifecycle claims), then
write it to a fresh `NamedTemporaryFile` whose name `tmp` the caller
receives.  `prep` models the config-building steps before the temp file
is created (template read, endpoint resolution): when they raise, no
file has been created yet. -/
def get_generator_options_file (fs : FS) (tmp : String)
    (prep : Except String Unit) : Except String String × FS :=
  match prep with
  | .error e => (.error e, fs)
  | .ok _ => (.ok tmp, tmp :: fs)

/-- One branch of `GarakServer.run_attack` that materializes a config
file (`model_type` "ollama" or "openai_like"): create the temp file,
invoke the external tool (outcome `spawn`, which may raise), and in a
`finally` block unlink the temp file when it exists. -/
def run_attack_with_config_file (fs : FS) (tmp : String)
    (prep : Except String Unit)
    (spawn : Except String (List String × Option Nat)) :
    Except String (List String × Option Nat) × FS :=
  match get_generator_options_file fs tmp prep with
  | (.error e, fs1) => (.error e, fs1)
  | (.ok config_file, fs1) =>
    let result := spawn
    let fs2 := if fs1.pathExists config_file then fs1.unlink config_file else fs1
    (result, fs2)

/-- `GarakServer.run_attack`: dispatch on `model_type`.  The "ollama"
and "openai_like" branches materialize a temp config file and clean it
up in a `finally`; every other kind passes `--model_name` directly and
touches no file. -/
def run_attack (model_type : String) (fs : FS) (tmp : String)
    (prep : Except String Unit)
    (spawn : Except String (List String × Option Nat)) :
    Except String (List String × Option Nat) × FS :=
  if model_type = "ollama" then
    run_attack_with_config_file fs tmp prep spawn
  else if model_type = "openai_like" then
    run_attack_with_config_file fs tmp prep spawn
  else
    (spawn, fs)

/-- The report directory as `get_report` observes it: file names (as
they appear inside `REPORT_DIR`) with the timestamp `os.path.getctime`
returns for them. -/
abbrev ReportDir : Type := List (String × Nat)

/-- Python's `max(files, key=ctime)` over a glob result: first element
with the maximal timestamp, `none` on an empty list. -/
def maxByCtime (l : ReportDir) : Option (String × Nat) :=
  l.foldl
    (fun acc f =>
      match acc with
      | none => some f
      | some a => if f.2 > a.2 then some f else some a)
    none

/-- Name filter of the glob `*.jsonl`. -/
def matchesJsonl (name : String) : Bool :=
  List.isSuffixOf ".jsonl".toList name.toList

/-- `get_report` (`src/server.py`): glob `*.jsonl` in the output
directory and return the most recent file; otherwise return the
expected fallback name only if that file exists; otherwise fall off the
end of the function (Python returns `None`). -/
def get_report (dir : ReportDir) : Option String :=
  let jsonl_files := dir.filter fun f => matchesJsonl f.1
  match maxByCtime jsonl_files with
  | some latest => some latest.1
  | none =>
    if dir.any (fun f => f.1 = "output.report.jsonl") then
      some "output.report.jsonl"
    else
      none

/-! ### Helper lemmas -/

theorem firstFieldIn_eq_head_filter (keys : List String) (l : List String) :
    firstFieldIn keys l = (l.filter fun f => keys.contains f).head? := by
  induction l with
  | nil => rfl
  | cons f fs ih =>
    simp only [firstFieldIn, List.filter]
    cases keys.contains f <;> simp [ih]

theorem filterMap_stripKeep (l : List String) :
    l.filterMap stripKeep = (l.map stripStr).filter fun s => s ≠ "" := by
  induction l with
  | nil => rfl
  | cons m t ih =>
    simp only [List.filterMap, List.map, List.filter, stripKeep]
    by_cases h : stripStr m = ""
    · simp [h, ih]
    · simp [h, ih]

theorem unlink_pathExists_false (fs : FS) (p : String) :
    (fs.unlink p).pathExists p = false := by
  simp only [FS.unlink, FS.pathExists, List.contains]
  rw [Bool.eq_false_iff]
  intro hc
  have hmem : p ∈ List.filter (fun q => decide (q ≠ p)) fs := List.elem_iff.mp hc
  simp [List.mem_filter] at hmem

/-- The accumulator-passing invariant of `maxByCtime`'s fold. -/
theorem maxByCtime_fold_spec (l : ReportDir) (a : String × Nat) :
    ∃ m, (l.foldl
        (fun acc f =>
          match acc with
          | none => some f
          | some b => if f.2 > b.2 then some f else some b)
        (some a)) = some m ∧
      (m = a ∨ m ∈ l) ∧ a.2 ≤ m.2 ∧ ∀ g ∈ l, g.2 ≤ m.2 := by
  induction l generalizing a with
  | nil => exact ⟨a, rfl, Or.inl rfl, le_refl _, by simp⟩
  | cons f t ih =>
    simp only [List.foldl]
    by_cases h : f.2 > a.2
    · obtain ⟨m, hm, hmem, hle, hall⟩ := ih f
      refine ⟨m, by simpa [h] using hm, ?_, ?_, ?_⟩
      · rcases hmem with rfl | hm2
        · exact Or.inr (List.mem_cons_self _ _)
        · exact Or.inr (List.mem_cons_of_mem _ hm2)
      · omega
      · intro g hg
        rcases List.mem_cons.mp hg with rfl | hg2
        · exact hle
        · exact hall g hg2
    · obtain ⟨m, hm, hmem, hle, hall⟩ := ih a
      refine ⟨m, by simpa [h] using hm, ?_, hle, ?_⟩
      · rcases hmem with rfl | hm2
        · exact Or.inl rfl
        · exact Or.inr (List.mem_cons_of_mem _ hm2)
      · intro g hg
        rcases List.mem_cons.mp hg with rfl | hg2
        · omega
        · exact hall g hg2

theorem maxByCtime_spec (l : ReportDir) (hl : l ≠ []) :
    ∃ m, maxByCtime l = some m ∧ m ∈ l ∧ ∀ g ∈ l, g.2 ≤ m.2 := by
  match l with
  | [] => exact absurd rfl hl
  | f :: t =>
    obtain ⟨m, hm, hmem, hfle, hall⟩ := maxByCtime_fold_spec t f
    refine ⟨m, by simpa [maxByCtime, List.foldl] using hm, ?_, ?_⟩
    · rcases hmem with rfl | h2
      · exact List.mem_cons_self _ _
      · exact List.mem_cons_of_mem _ h2
    · intro g hg
      rcases List.mem_cons.mp hg with rfl | hg2
      · exact hfle
      · exact hall g hg2

theorem stripAnsiFuel_no_esc (fuel : Nat) (l : List Char)
    (h : '\x1b' ∉ l) : stripAnsiFuel fuel l = l := by
  induction fuel generalizing l with
  | zero => cases l <;> rfl
  | succ f ih =>
    match l with
    | [] => rfl
    | c :: cs =>
      have hc : c ≠ '\x1b' := fun hh => h (hh ▸ List.mem_cons_self c cs)
      have hcs : '\x1b' ∉ cs := fun hh => h (List.mem_cons_of_mem c hh)
      simp only [stripAnsiFuel, if_neg hc]
      rw [ih cs hcs]

theorem matchAnsiBody_suffix (cs rest : List Char)
    (h : matchAnsiBody cs = some rest) : rest <:+ cs := by
  match cs with
  | [] => simp [matchAnsiBody] at h
  | c :: t =>
    simp only [matchAnsiBody] at h
    split at h
    · have h1 : t.dropWhile isCsiParam <:+ t := List.dropWhile_suffix _
      have h2 : (t.dropWhile isCsiParam).dropWhile isCsiInterm <:+
          t.dropWhile isCsiParam := List.dropWhile_suffix _
      split at h
      · exact absurd h (by simp)
      · next f tail heq =>
          split at h
          · cases h
            have h3 : rest <:+ f :: rest := ⟨[f], rfl⟩
            have h4 : rest <:+ t := (h3.trans (heq ▸ h2)).trans h1
            exact h4.trans ⟨[c], rfl⟩
          · exact absurd h (by simp)
    · split at h
      · cases h
        exact ⟨[c], rfl⟩
      · exact absurd h (by simp)

theorem stripAnsiFuel_sublist (fuel : Nat) (l : List Char) :
    (stripAnsiFuel fuel l).Sublist l := by
  induction fuel generalizing l with
  | zero => cases l <;> simp [stripAnsiFuel]
  | succ f ih =>
    match l with
    | [] => simp [stripAnsiFuel]
    | c :: cs =>
      simp only [stripAnsiFuel]
      by_cases hc : c = '\x1b'
      · simp only [hc, if_pos rfl]
        cases hm : matchAnsiBody cs with
        | some rest =>
          have := (ih rest).trans (matchAnsiBody_suffix cs rest hm).sublist
          exact this.trans (List.sublist_cons_self _ _)
        | none => exact (ih cs).cons₂ _
      · simp only [if_neg hc]
        exact (ih cs).cons₂ _

/-! ### Claim theorems -/

/-- C4: for every provider-kind string not among the five known kinds,
`ModelConfig.list_models` and `ModelConfig.get_model_type_info` raise
the invalid-provider `ValueError`; for every known kind they return a
result and do not raise it. -/
theorem claim_C4_invalid_provider (cfg : ModelConfig) (env : PyEnv)
    (net : NetOracles) (mt : String) :
    (mt ∉ model_type_names →
      cfg.list_models env net mt = .error ("Invalid model type: " ++ mt) ∧
      ModelConfig.get_model_type_info mt =
        .error ("Invalid model type: " ++ mt)) ∧
    (mt ∈ model_type_names →
      (∃ l, cfg.list_models env net mt = .ok l) ∧
      (∃ i, ModelConfig.get_model_type_info mt = .ok i)) := by
  constructor
  · intro h
    constructor
    · simp [ModelConfig.list_models, h]
    · simp [ModelConfig.get_model_type_info, h]
  · intro h
    constructor
    · unfold ModelConfig.list_models
      rw [if_pos h]
      split_ifs <;> exact ⟨_, rfl⟩
    · unfold ModelConfig.get_model_type_info
      rw [if_pos h]
      split_ifs <;> exact ⟨_, rfl⟩

/-- Witness for C4 at the unknown kind `"bogus"` and the known kind
`"ollama"`. -/
theorem claim_C4_witness :
    ModelConfig.list_models ⟨1, "", none, none⟩ (fun _ => none)
        ⟨[], fun _ _ => []⟩ "bogus" = .error "Invalid model type: bogus" ∧
    (∃ l, ModelConfig.list_models ⟨1, "", none, none⟩ (fun _ => none)
        ⟨[], fun _ _ => []⟩ "ollama" = .ok l) := by
  constructor
  · exact ((claim_C4_invalid_provider ⟨1, "", none, none⟩ (fun _ => none)
      ⟨[], fun _ _ => []⟩ "bogus").1 (by decide)).1
  · exact ((claim_C4_invalid_provider ⟨1, "", none, none⟩ (fun _ => none)
      ⟨[], fun _ _ => []⟩ "ollama").2 (by decide)).1

/-- C5: `get_response_field_from_data` returns the first entry of the
ordered preference list that occurs among the body's top-level keys,
and the fixed fallback `"choices"` when none occurs. -/
theorem claim_C5_response_field (keys : List String) :
    get_response_field_from_data keys =
      ((response_fields.filter fun f => keys.contains f).head?).getD
        "choices" := by
  unfold get_response_field_from_data
  rw [firstFieldIn_eq_head_filter]

/-- C6: every static-list provider splits the comma-separated
environment value, strips each entry, drops empties and preserves the
order; the value `"a, b ,,c"` yields exactly `["a", "b", "c"]` through
`list_models` for each of the three static kinds. -/
theorem claim_C6_static_lists :
    (∀ value, splitStripModels value =
      ((splitStr ',' value).map stripStr).filter fun s => s ≠ "") ∧
    splitStripModels "a, b ,,c" = ["a", "b", "c"] ∧
    (∀ cfg env net, getenvD env "OPENAI_MODELS" "" = "a, b ,,c" →
      ModelConfig.list_models cfg env net "openai" = .ok ["a", "b", "c"]) ∧
    (∀ cfg env net, getenvD env "HUGGINGFACE_MODELS" "" = "a, b ,,c" →
      ModelConfig.list_models cfg env net "huggingface" =
        .ok ["a", "b", "c"]) ∧
    (∀ cfg env net, getenvD env "GGML_MODELS" "" = "a, b ,,c" →
      ModelConfig.list_models cfg env net "ggml" = .ok ["a", "b", "c"]) := by
  refine ⟨fun value => filterMap_stripKeep _, by decide, ?_, ?_, ?_⟩
  · intro cfg env net h
    have hm : ModelConfig.getOpenaiModels env = ["a", "b", "c"] := by
      unfold ModelConfig.getOpenaiModels
      rw [h]
      decide
    have hmem : "openai" ∈ model_type_names := by decide
    simp [ModelConfig.list_models, hm, hmem]
  · intro cfg env net h
    have hm : ModelConfig.getHuggingfaceModels env = ["a", "b", "c"] := by
      unfold ModelConfig.getHuggingfaceModels
      rw [h]
      decide
    have hmem : "huggingface" ∈ model_type_names := by decide
    simp [ModelConfig.list_models, hm, hmem]
  · intro cfg env net h
    have hm : ModelConfig.getGgmlModels env = ["a", "b", "c"] := by
      unfold ModelConfig.getGgmlModels
      rw [h]
      decide
    have hmem : "ggml" ∈ model_type_names := by decide
    simp [ModelConfig.list_models, hm, hmem]

/-- Witness for C6: a concrete environment mapping every variable to
`"a, b ,,c"`. -/
theorem claim_C6_witness :
    ModelConfig.list_models ⟨1, "", none, none⟩ (fun _ => some "a, b ,,c")
      ⟨[], fun _ _ => []⟩ "openai" = .ok ["a", "b", "c"] :=
  claim_C6_static_lists.2.2.1 ⟨1, "", none, none⟩ (fun _ => some "a, b ,,c")
    ⟨[], fun _ _ => []⟩ rfl

/-- C7: the code evaluated at the failing input.  A transport-level
spawn failure raises `OSError`, which the `except` clause (catching
only `subprocess.SubprocessError`) does not cover, so
`get_terminal_commands_output` raises instead of returning the empty
result the claim promises; only a `SubprocessError` is swallowed into
`([], None)`. -/
theorem claim_C7_spawn_error :
    get_terminal_commands_output (.osError "could not fork") =
      .error "could not fork" ∧
    get_terminal_commands_output (.subprocessError "subprocess error") =
      .ok ([], none) :=
  ⟨rfl, rfl⟩

/-- C9: `set_parallel_attempts` errors exactly when the requested count
is below 1; otherwise it sets `parallel_attempts` to that count and
leaves every other field unchanged (on the error path no new
configuration is produced at all). -/
theorem claim_C9_set_parallel_attempts (cfg : ModelConfig) (attempts : Int) :
    (attempts < 1 →
      cfg.set_parallel_attempts attempts =
        .error "Number of parallel attempts must be at least 1") ∧
    (1 ≤ attempts →
      cfg.set_parallel_attempts attempts =
        .ok { cfg with parallel_attempts := attempts }) ∧
    (∀ cfg', cfg.set_parallel_attempts attempts = .ok cfg' →
      cfg'.parallel_attempts = attempts ∧
      cfg'.ollama_api_url = cfg.ollama_api_url ∧
      cfg'.openai_like_base_url = cfg.openai_like_base_url ∧
      cfg'.openai_like_api_key = cfg.openai_like_api_key) := by
  refine ⟨?_, ?_, ?_⟩
  · intro h
    simp [ModelConfig.set_parallel_attempts, h]
  · intro h
    unfold ModelConfig.set_parallel_attempts
    rw [if_neg (by omega)]
  · intro cfg' h
    unfold ModelConfig.set_parallel_attempts at h
    by_cases hlt : attempts < 1
    · rw [if_pos hlt] at h
      exact absurd h (by simp)
    · rw [if_neg hlt] at h
      cases h
      exact ⟨rfl, rfl, rfl, rfl⟩

/-- Witness for C9 at count 0 (error) and count 3 (success). -/
theorem claim_C9_witness :
    ModelConfig.set_parallel_attempts ⟨1, "u", none, none⟩ 0 =
      .error "Number of parallel attempts must be at least 1" ∧
    ModelConfig.set_parallel_attempts ⟨1, "u", none, none⟩ 3 =
      .ok ⟨3, "u", none, none⟩ := by
  constructor
  · exact (claim_C9_set_parallel_attempts ⟨1, "u", none, none⟩ 0).1 (by decide)
  · exact (claim_C9_set_parallel_attempts ⟨1, "u", none, none⟩ 3).2.1 (by decide)

/-- C10: with no base URL configured for the `openai_like` provider
(unset or empty), `_get_openai_like_models` returns the empty list
having made zero network requests, and `list_models "openai_like"`
returns `ok []` without raising. -/
theorem claim_C10_no_base_url (cfg : ModelConfig) (env : PyEnv)
    (net : NetOracles)
    (h : cfg.openai_like_base_url = none ∨ cfg.openai_like_base_url = some "") :
    cfg.getOpenaiLikeModels net.openaiLikeFetch = ([], 0) ∧
    ModelConfig.list_models cfg env net "openai_like" = .ok [] := by
  have ht : truthy cfg.openai_like_base_url = false := by
    rcases h with h | h <;> rw [h] <;> decide
  have h1 : cfg.getOpenaiLikeModels net.openaiLikeFetch = ([], 0) := by
    simp [ModelConfig.getOpenaiLikeModels, ht]
  refine ⟨h1, ?_⟩
  have hmem : "openai_like" ∈ model_type_names := by decide
  simp [ModelConfig.list_models, h1, hmem]

/-- Witness for C10 at a configuration with an unset base URL. -/
theorem claim_C10_witness :
    ModelConfig.list_models ⟨1, "", none, none⟩ (fun _ => none)
      ⟨[], fun _ _ => []⟩ "openai_like" = .ok [] :=
  (claim_C10_no_base_url ⟨1, "", none, none⟩ (fun _ => none)
    ⟨[], fun _ _ => []⟩ (Or.inl rfl)).2

/-- C1: for both config-file branches of `run_attack` ("ollama" and
"openai_like"), the temporary generator-config file no longer exists on
disk when `run_attack` returns or raises: the `finally` block deletes
it on the success path and on every error path alike (and when the
materialization itself raises, the file was never created). -/
theorem claim_C1_temp_file_lifetime (model_type : String) (fs : FS)
    (tmp : String) (prep : Except String Unit)
    (spawn : Except String (List String × Option Nat))
    (hmt : model_type = "ollama" ∨ model_type = "openai_like")
    (hfresh : fs.pathExists tmp = false) :
    ((run_attack model_type fs tmp prep spawn).2).pathExists tmp = false := by
  have hbranch :
      (run_attack_with_config_file fs tmp prep spawn).2.pathExists tmp
        = false := by
    cases prep with
    | error e =>
      simpa [run_attack_with_config_file, get_generator_options_file]
        using hfresh
    | ok u =>
      simp only [run_attack_with_config_file, get_generator_options_file]
      have hex : FS.pathExists (tmp :: fs) tmp = true := by
        simp [FS.pathExists, List.contains]
      rw [if_pos hex]
      exact unlink_pathExists_false (tmp :: fs) tmp
  rcases hmt with h | h <;> simp [run_attack, h, hbranch]

/-- Witness for C1: the "ollama" branch on an initially empty
filesystem, with the materialization succeeding and the spawn
succeeding. -/
theorem claim_C1_witness :
    ((run_attack "ollama" [] "tmp0.json" (.ok ())
      (.ok ([], some 1))).2).pathExists "tmp0.json" = false :=
  claim_C1_temp_file_lifetime "ollama" [] "tmp0.json" (.ok ())
    (.ok ([], some 1)) (Or.inl rfl) (by decide)

/-- C2 counterexample: `"http://ollama:4000"` contains the
local-inference signature `"ollama"` (case-insensitively), yet
`get_openai_like_endpoints` returns the OpenAI-compatible paths, not
the local-inference ones, because the LiteLLM signature `"4000"` is
checked first. -/
theorem claim_C2_counterexample :
    containsSub (lowerStr "http://ollama:4000") "ollama" = true ∧
    ModelConfig.get_openai_like_endpoints "http://ollama:4000" =
      ⟨"/v1/chat/completions", "/v1/models"⟩ ∧
    ModelConfig.get_openai_like_endpoints "http://ollama:4000" ≠
      ⟨"/api/generate", "/api/tags"⟩ := by
  refine ⟨by decide, by decide, by decide⟩

/-- C2 amended: a base URL with the local-inference signature (`"11434"`
or, case-insensitively, `"ollama"`) gets the local-inference paths
provided it does not also carry the LiteLLM signature (`"4000"` or,
case-insensitively, `"litellm"`), which is checked first; every base
URL without the local-inference signature gets the OpenAI-compatible
paths.  The function is pure, so no network call is involved. -/
theorem claim_C2_endpoint_dialect (base_url : String) :
    ((containsSub base_url "11434" ||
        containsSub (lowerStr base_url) "ollama") = true →
      (containsSub base_url "4000" ||
        containsSub (lowerStr base_url) "litellm") = false →
      ModelConfig.get_openai_like_endpoints base_url =
        ⟨"/api/generate", "/api/tags"⟩) ∧
    ((containsSub base_url "11434" ||
        containsSub (lowerStr base_url) "ollama") = false →
      ModelConfig.get_openai_like_endpoints base_url =
        ⟨"/v1/chat/completions", "/v1/models"⟩) := by
  unfold ModelConfig.get_openai_like_endpoints
  constructor
  · intro h1 h2
    rw [if_neg (by simp [h2]), if_pos h1]
  · intro h1
    by_cases h : (containsSub base_url "4000" ||
        containsSub (lowerStr base_url) "litellm") = true
    · rw [if_pos h]
    · rw [if_neg h, if_neg (by simp [h1])]

/-- Witness for C2 at a local-inference URL and a plain URL. -/
theorem claim_C2_witness :
    ModelConfig.get_openai_like_endpoints "http://localhost:11434" =
      ⟨"/api/generate", "/api/tags"⟩ ∧
    ModelConfig.get_openai_like_endpoints "http://example.com" =
      ⟨"/v1/chat/completions", "/v1/models"⟩ := by
  constructor
  · exact (claim_C2_endpoint_dialect "http://localhost:11434").1
      (by decide) (by decide)
  · exact (claim_C2_endpoint_dialect "http://example.com").2 (by decide)

/-- C3 counterexample: on an empty output directory `get_report`
returns `none` (Python falls off the end of the function and returns
`None`), not the deterministic fallback path and not a diagnostic
string. -/
theorem claim_C3_counterexample : get_report [] = none := rfl

/-- C3 amended: when `.jsonl` report files exist, `get_report` returns
the path of one with the maximal timestamp; when none exist it returns
nothing (`None`) — the explicit fallback branch is unreachable because
the fallback file name itself matches the `*.jsonl` glob. -/
theorem claim_C3_get_report (dir : ReportDir) :
    (dir.filter (fun f => matchesJsonl f.1) = [] → get_report dir = none) ∧
    (dir.filter (fun f => matchesJsonl f.1) ≠ [] →
      ∃ f ∈ dir.filter (fun f => matchesJsonl f.1),
        get_report dir = some f.1 ∧
        ∀ g ∈ dir.filter (fun f => matchesJsonl f.1), g.2 ≤ f.2) := by
  constructor
  · intro h
    have hfb : dir.any (fun f => f.1 = "output.report.jsonl") = false := by
      rw [Bool.eq_false_iff]
      intro hc
      obtain ⟨f, hf, hfeq⟩ := List.any_eq_true.mp hc
      have hname : f.1 = "output.report.jsonl" := of_decide_eq_true hfeq
      have hjs : matchesJsonl f.1 = true := by
        rw [hname]
        decide
      have hmem : f ∈ dir.filter (fun f => matchesJsonl f.1) :=
        List.mem_filter.mpr ⟨hf, hjs⟩
      rw [h] at hmem
      simp at hmem
    simp only [get_report, h]
    simp [maxByCtime, hfb]
  · intro h
    obtain ⟨m, hm, hmem, hall⟩ := maxByCtime_spec _ h
    refine ⟨m, hmem, ?_, hall⟩
    simp only [get_report]
    rw [hm]

/-- Witness for C3 amended: an empty directory hits the `none` branch;
a directory with two report files returns the newer one. -/
theorem claim_C3_witness :
    get_report [] = none ∧
    ∃ f ∈ ([("run1.jsonl", 5), ("run2.jsonl", 9)] :
        ReportDir).filter (fun f => matchesJsonl f.1),
      get_report [("run1.jsonl", 5), ("run2.jsonl", 9)] = some f.1 ∧
      ∀ g ∈ ([("run1.jsonl", 5), ("run2.jsonl", 9)] :
          ReportDir).filter (fun f => matchesJsonl f.1), g.2 ≤ f.2 := by
  constructor
  · exact (claim_C3_get_report []).1 rfl
  · exact (claim_C3_get_report [("run1.jsonl", 5), ("run2.jsonl", 9)]).2
      (by decide)

/-- C8: `sanitize_output` removes ANSI escape sequences and leaves
other characters unchanged: on input free of the escape character it is
the identity, its output is always a subsequence of its input (it only
ever deletes characters), and the ANSI-laden example sanitizes to
exactly `"error line"`. -/
theorem claim_C8_sanitize_output :
    (∀ s : String, '\x1b' ∉ s.toList → sanitize_output s = s) ∧
    (∀ s : String, (sanitize_output s).toList.Sublist s.toList) ∧
    sanitize_output "\x1b[31merror\x1b[0m line" = "error line" := by
  refine ⟨?_, ?_, by decide⟩
  · intro s h
    unfold sanitize_output stripAnsi
    rw [stripAnsiFuel_no_esc _ _ h]
    rfl
  · intro s
    have hl : (sanitize_output s).toList = stripAnsi s.toList := rfl
    rw [hl]
    exact stripAnsiFuel_sublist _ _

/-- Witness for C8: the identity on escape-free input, applied at
`"plain"`, plus the concrete ANSI example. -/
theorem claim_C8_witness :
    sanitize_output "plain" = "plain" ∧
    sanitize_output "\x1b[31merror\x1b[0m line" = "error line" :=
  ⟨claim_C8_sanitize_output.1 "plain" (by decide),
    claim_C8_sanitize_output.2.2⟩

end GarakMCP
